import Mathlib

/-!
Verification of the image-extraction core of the ImageList browser extension
(`src/content.js`).  JavaScript strings are embedded as `List Char`, byte
buffers (`ArrayBuffer`/`DataView`) as `List Nat`, and the asynchronous /
platform-dependent pieces (fetch outcomes, the XML parser's output) are
passed in explicitly as data.  Each definition mirrors the correspondingly
named function of `src/content.js`.

`str.split(c)` for a one-character separator is embedded as `List.splitOn`,
which has the same semantics (every occurrence splits, empty pieces kept,
result never empty); `arr.join(c)` is `List.intercalate [c]`.
-/

namespace ImageList

/-- ASCII lower-casing of one character, as `String.prototype.toLowerCase`
behaves on ASCII input (all format keywords and tracking-parameter keys the
code compares against are ASCII). -/
def jsToLower (c : Char) : Char :=
  if 'A' ≤ c ∧ c ≤ 'Z' then Char.ofNat (c.toNat + 32) else c

/-- Embedding of `s.toLowerCase()` on an embedded string. -/
def toLowerStr (l : List Char) : List Char := l.map jsToLower

theorem splitOn_pieces_not_mem (c : Char) (l : List Char) :
    ∀ p ∈ l.splitOn c, c ∉ p := by
  induction l with
  | nil =>
    intro p hp
    simp only [List.splitOn, List.splitOnP_nil, List.mem_singleton] at hp
    simp [hp]
  | cons x xs ih =>
    intro p hp
    simp only [List.splitOn] at hp ih
    rw [List.splitOnP_cons] at hp
    by_cases hx : (x == c) = true
    · rw [if_pos hx] at hp
      rcases List.mem_cons.mp hp with rfl | h
      · simp
      · exact ih p h
    · rw [if_neg hx] at hp
      obtain ⟨q, qs, hq⟩ : ∃ q qs, xs.splitOnP (· == c) = q :: qs := by
        cases h : xs.splitOnP (· == c) with
        | nil => exact absurd h (List.splitOnP_ne_nil _ xs)
        | cons q qs => exact ⟨q, qs, rfl⟩
      rw [hq] at hp
      simp only [List.modifyHead] at hp
      rcases List.mem_cons.mp hp with rfl | h
      · have hq1 : c ∉ q := ih q (by rw [hq]; exact List.mem_cons_self q qs)
        simp only [List.mem_cons, not_or]
        exact ⟨fun hc => hx (by simp [hc.symm]), hq1⟩
      · exact ih p (by rw [hq]; exact List.mem_cons_of_mem q h)

theorem splitOn_pieces_subset (c : Char) (l : List Char) :
    ∀ p ∈ l.splitOn c, ∀ x ∈ p, x ∈ l := by
  induction l with
  | nil =>
    intro p hp
    simp only [List.splitOn, List.splitOnP_nil, List.mem_singleton] at hp
    simp [hp]
  | cons y xs ih =>
    intro p hp x hx
    simp only [List.splitOn] at hp ih
    rw [List.splitOnP_cons] at hp
    by_cases hy : (y == c) = true
    · rw [if_pos hy] at hp
      rcases List.mem_cons.mp hp with rfl | h
      · simp at hx
      · exact List.mem_cons_of_mem y (ih p h x hx)
    · rw [if_neg hy] at hp
      obtain ⟨q, qs, hq⟩ : ∃ q qs, xs.splitOnP (· == c) = q :: qs := by
        cases h : xs.splitOnP (· == c) with
        | nil => exact absurd h (List.splitOnP_ne_nil _ xs)
        | cons q qs => exact ⟨q, qs, rfl⟩
      rw [hq] at hp
      simp only [List.modifyHead] at hp
      rcases List.mem_cons.mp hp with rfl | h
      · rcases List.mem_cons.mp hx with rfl | hq1
        · exact List.mem_cons_self x xs
        · exact List.mem_cons_of_mem y
            (ih q (by rw [hq]; exact List.mem_cons_self q qs) x hq1)
      · exact List.mem_cons_of_mem y
          (ih p (by rw [hq]; exact List.mem_cons_of_mem q h) x hx)

theorem splitOn_append_cons (c : Char) (a b : List Char) (ha : c ∉ a) :
    (a ++ c :: b).splitOn c = a :: b.splitOn c := by
  simp only [List.splitOn]
  exact List.splitOnP_first (fun x => x == c) a
    (fun x hx hb => ha (beq_iff_eq.mp hb ▸ hx)) c (beq_self_eq_true c) b

theorem splitOn_of_not_mem (c : Char) (l : List Char) (h : c ∉ l) :
    l.splitOn c = [l] := by
  simp only [List.splitOn]
  exact List.splitOnP_eq_single (fun x => x == c) l (fun x hx hb => h (beq_iff_eq.mp hb ▸ hx))

theorem mem_intercalate_singleton (c : Char) (ps : List (List Char)) (x : Char) :
    x ∈ List.intercalate [c] ps → x = c ∨ ∃ p ∈ ps, x ∈ p := by
  induction ps with
  | nil => intro h; simp [List.intercalate] at h
  | cons p ps ih =>
    cases ps with
    | nil =>
      intro h
      simp only [List.intercalate, List.intersperse_singleton, List.flatten_cons,
        List.flatten_nil, List.append_nil] at h
      exact Or.inr ⟨p, List.mem_cons_self p [], h⟩
    | cons q qs =>
      intro h
      have hstep : List.intercalate [c] (p :: q :: qs) =
          p ++ c :: List.intercalate [c] (q :: qs) := by
        simp [List.intercalate, List.intersperse_cons_cons]
      rw [hstep] at h
      rcases List.mem_append.mp h with h1 | h1
      · exact Or.inr ⟨p, List.mem_cons_self p _, h1⟩
      · rcases List.mem_cons.mp h1 with rfl | h2
        · exact Or.inl rfl
        · rcases ih h2 with h3 | ⟨r, hr, hx⟩
          · exact Or.inl h3
          · exact Or.inr ⟨r, List.mem_cons_of_mem p hr, hx⟩

/-! ## URL normalization (final pass of `extractImages`, content.js 1536-1555) -/

/-- The hardcoded tracking-parameter keys removed during URL normalization. -/
def trackingKeys : List (List Char) :=
  ["utm_source".toList, "utm_medium".toList, "utm_campaign".toList,
   "utm_term".toList, "utm_content".toList, "gclid".toList, "fbclid".toList,
   "msclkid".toList, "mc_eid".toList, "cid".toList, "pid".toList]

/-- Embedding of `param.split('=')[0].toLowerCase()` — the key of one query parameter. -/
def paramKey (param : List Char) : List Char :=
  toLowerStr (param.takeWhile (· ≠ '='))

/-- The filter predicate on query parameters: keep those whose key is not a
tracking key (content.js 1543-1548). -/
def keepParam (param : List Char) : Bool :=
  !(trackingKeys.contains (paramKey param))

/-- URL normalization of the final extraction pass (content.js 1536-1555):
split at `'?'`, drop tracking parameters, and reassemble.  As in the
source, `url.split('?')[1]` takes only the portion between the first and
second `'?'`. -/
def normalizeUrl (u : List Char) : List Char :=
  if '?' ∈ u then
    let urlParts := u.splitOn '?'
    let baseUrl := urlParts.headI
    let params := urlParts.tail.headI
    let paramPairs := (params.splitOn '&').filter keepParam
    if paramPairs ≠ [] then baseUrl ++ '?' :: List.intercalate ['&'] paramPairs
    else baseUrl
  else u

theorem splitOn_ne_nil (c : Char) (u : List Char) : u.splitOn c ≠ [] := by
  simpa [List.splitOn] using List.splitOnP_ne_nil (fun x => x == c) u

/-- C6: URL normalization is idempotent — normalizing the result of
normalizing any URL string yields the same string as normalizing once. -/
theorem normalizeUrl_idempotent (u : List Char) :
    normalizeUrl (normalizeUrl u) = normalizeUrl u := by
  by_cases hq : '?' ∈ u
  · obtain ⟨base, rest, hparts⟩ : ∃ b r, u.splitOn '?' = b :: r := by
      cases h : u.splitOn '?' with
      | nil => exact absurd h (splitOn_ne_nil '?' u)
      | cons b r => exact ⟨b, r, rfl⟩
    have hbase : '?' ∉ base :=
      splitOn_pieces_not_mem '?' u base (by rw [hparts]; exact List.mem_cons_self _ _)
    have hunfold : normalizeUrl u =
        (if ((rest.headI.splitOn '&').filter keepParam) ≠ [] then
          base ++ '?' :: List.intercalate ['&'] ((rest.headI.splitOn '&').filter keepParam)
        else base) := by
      rw [normalizeUrl, if_pos hq, hparts]
      rfl
    have hpfree : '?' ∉ rest.headI := by
      cases rest with
      | nil => decide
      | cons p ps =>
        exact splitOn_pieces_not_mem '?' u p
          (by rw [hparts]; exact List.mem_cons_of_mem _ (List.mem_cons_self _ _))
    by_cases hk : ((rest.headI.splitOn '&').filter keepParam) = []
    · rw [hunfold, if_neg (by simp [hk]), normalizeUrl, if_neg hbase]
    · rw [hunfold, if_pos hk]
      have hfree : ∀ p ∈ (rest.headI.splitOn '&').filter keepParam, '&' ∉ p :=
        fun p hp => splitOn_pieces_not_mem '&' _ p (List.mem_of_mem_filter hp)
      have hqfree : ∀ p ∈ (rest.headI.splitOn '&').filter keepParam, '?' ∉ p :=
        fun p hp hmem =>
          hpfree (splitOn_pieces_subset '&' _ p (List.mem_of_mem_filter hp) '?' hmem)
      have hInoQ :
          '?' ∉ List.intercalate ['&'] ((rest.headI.splitOn '&').filter keepParam) := by
        intro hmem
        rcases mem_intercalate_singleton '&' _ '?' hmem with h | ⟨p, hp, hin⟩
        · exact absurd h (by decide)
        · exact hqfree p hp hin
      have hmemQ : '?' ∈
          base ++ '?' :: List.intercalate ['&'] ((rest.headI.splitOn '&').filter keepParam) := by
        simp
      rw [normalizeUrl, if_pos hmemQ, splitOn_append_cons '?' base _ hbase,
        splitOn_of_not_mem '?' _ hInoQ]
      simp only [List.headI_cons, List.tail_cons]
      have hsplitBack :
          (List.intercalate ['&'] ((rest.headI.splitOn '&').filter keepParam)).splitOn '&'
            = (rest.headI.splitOn '&').filter keepParam :=
        List.splitOn_intercalate _ '&' hfree hk
      rw [hsplitBack]
      have hfilter :
          ((rest.headI.splitOn '&').filter keepParam).filter keepParam
            = (rest.headI.splitOn '&').filter keepParam :=
        List.filter_eq_self.mpr (fun p hp => List.of_mem_filter hp)
      rw [hfilter, if_pos hk]
  · have h0 : normalizeUrl u = u := by rw [normalizeUrl, if_neg hq]
    rw [h0]
    exact h0

/-! ## The image record (content.js: objects pushed by `extractImages`) -/

/-- One discovered image candidate, as built by `extractImages`:
`{src, alt, width, height, type, elementType}`.  A width/height of `0`
means "unknown". -/
structure ImageRecord where
  src : List Char
  alt : List Char
  width : Nat
  height : Nat
  type : List Char
  elementType : List Char
  deriving Repr, DecidableEq

/-! ## Result coordination (`getImageInfoCoordinated`, content.js 219-245) -/

/-- The merge step of `getImageInfoCoordinated` (content.js 227-240).  The
two `Promise.allSettled` outcomes are passed explicitly: `none` models a
rejected promise, `some v` a fulfilled one.  The type is overwritten only
when the refined type is fulfilled and not `'unknown'`; the dimensions only
when fulfilled with both values strictly positive. -/
def getImageInfoCoordinated (initialImage : ImageRecord)
    (detectedType : Option (List Char)) (dimensions : Option (Nat × Nat)) :
    ImageRecord :=
  let updated1 :=
    match detectedType with
    | some v => if v ≠ "unknown".toList then { initialImage with type := v } else initialImage
    | none => initialImage
  match dimensions with
  | some (w, h) =>
    if 0 < w ∧ 0 < h then { updated1 with width := w, height := h } else updated1
  | none => updated1

/-! ## Final filtering and deduplication pass (`extractImages`, content.js 1525-1565) -/

/-- The size filter of the final pass (content.js 1532-1533): keep a record
when either dimension reaches the 10-pixel threshold, or when both
dimensions are unknown (zero). -/
def sizeFilterKeep (image : ImageRecord) : Bool :=
  (decide (10 ≤ image.width) || decide (10 ≤ image.height)) ||
    (decide (image.width = 0) && decide (image.height = 0))

/-- The `forEach` loop of the final pass, with the `uniqueUrls` set carried
explicitly: size-filter, normalize the source, deduplicate by normalized
source (first occurrence wins), and store the normalized source back into
the record (content.js 1530-1565). -/
def finalPassGo : List ImageRecord → List (List Char) → List ImageRecord
  | [], _ => []
  | image :: rest, uniqueUrls =>
    if sizeFilterKeep image then
      let normalizedUrl := normalizeUrl image.src
      if normalizedUrl ∈ uniqueUrls then finalPassGo rest uniqueUrls
      else { image with src := normalizedUrl } :: finalPassGo rest (normalizedUrl :: uniqueUrls)
    else finalPassGo rest uniqueUrls

/-- The final pass of `extractImages` over the raw record list. -/
def extractFinalPass (images : List ImageRecord) : List ImageRecord :=
  finalPassGo images []

/-- C1: the merge of `getImageInfoCoordinated` overwrites the type only when
the refined type is fulfilled and not `'unknown'`, and the dimensions only
when both refined values are strictly positive; consequently a
non-`'unknown'` type is never reverted to `'unknown'` and positive
dimensions are never reset to zero by a refinement result. -/
theorem getImageInfoCoordinated_monotone (initialImage : ImageRecord)
    (detectedType : Option (List Char)) (dimensions : Option (Nat × Nat)) :
    ((getImageInfoCoordinated initialImage detectedType dimensions).type = initialImage.type ∨
      ∃ v, detectedType = some v ∧ v ≠ "unknown".toList ∧
        (getImageInfoCoordinated initialImage detectedType dimensions).type = v) ∧
    (((getImageInfoCoordinated initialImage detectedType dimensions).width = initialImage.width ∧
      (getImageInfoCoordinated initialImage detectedType dimensions).height = initialImage.height) ∨
      ∃ w h, dimensions = some (w, h) ∧ 0 < w ∧ 0 < h ∧
        (getImageInfoCoordinated initialImage detectedType dimensions).width = w ∧
        (getImageInfoCoordinated initialImage detectedType dimensions).height = h) ∧
    (initialImage.type ≠ "unknown".toList →
      (getImageInfoCoordinated initialImage detectedType dimensions).type ≠ "unknown".toList) ∧
    (0 < initialImage.width → 0 < initialImage.height →
      0 < (getImageInfoCoordinated initialImage detectedType dimensions).width ∧
      0 < (getImageInfoCoordinated initialImage detectedType dimensions).height) := by
  rcases detectedType with _ | v <;> rcases dimensions with _ | ⟨w, h⟩ <;>
    simp only [getImageInfoCoordinated] <;> (try split_ifs) <;>
    simp_all <;> tauto

/-- Closed witness for C1 at a concrete record and refinement outcome: a
rejected-in-effect type (`'unknown'`) and a non-positive dimension pair
leave type and dimensions intact. -/
theorem getImageInfoCoordinated_monotone_witness :
    (getImageInfoCoordinated ⟨"u".toList, [], 3, 4, "png".toList, "img".toList⟩
        (some "unknown".toList) (some (0, 7))).type ≠ "unknown".toList ∧
    0 < (getImageInfoCoordinated ⟨"u".toList, [], 3, 4, "png".toList, "img".toList⟩
        (some "unknown".toList) (some (0, 7))).width ∧
    0 < (getImageInfoCoordinated ⟨"u".toList, [], 3, 4, "png".toList, "img".toList⟩
        (some "unknown".toList) (some (0, 7))).height := by
  have h := getImageInfoCoordinated_monotone
    ⟨"u".toList, [], 3, 4, "png".toList, "img".toList⟩ (some "unknown".toList) (some (0, 7))
  exact ⟨h.2.2.1 (by decide), (h.2.2.2 (by decide) (by decide)).1,
    (h.2.2.2 (by decide) (by decide)).2⟩

/-- C4 counterexample: a record with width 0 (unknown) and height 5 is
dropped by the final pass even though its width is not known, contradicting
"a record is never dropped unless both dimensions are known (non-zero) and
below the threshold". -/
theorem sizeFilter_drops_partially_unknown :
    extractFinalPass
        [⟨"https://site.com/tiny".toList, [], 0, 5, "png".toList, "img".toList⟩] = [] ∧
    (⟨"https://site.com/tiny".toList, [], 0, 5, "png".toList, "img".toList⟩ :
      ImageRecord).width = 0 := by
  decide

/-- C4 (amended): the final size filter removes a lone record iff both
dimensions are below the 10×10 threshold and they are not both zero
(one zero "unknown" dimension does not protect a record whose other
dimension is known-small); in particular a 5×5 record is excluded and a
0×0 record is retained. -/
theorem sizeFilter_amended (image : ImageRecord) :
    (extractFinalPass [image] = [] ↔
      (image.width < 10 ∧ image.height < 10 ∧
        ¬(image.width = 0 ∧ image.height = 0))) ∧
    extractFinalPass [{ image with width := 5, height := 5 }] = [] ∧
    extractFinalPass [{ image with width := 0, height := 0 }] =
      [{ image with width := 0, height := 0, src := normalizeUrl image.src }] := by
  refine ⟨?_, ?_, ?_⟩ <;>
    simp only [extractFinalPass, finalPassGo, sizeFilterKeep] <;>
    split_ifs <;> simp_all <;> omega

/-- The records produced by `finalPassGo` have pairwise distinct sources,
none of which was already seen. -/
theorem finalPassGo_src_nodup (images : List ImageRecord) (seen : List (List Char)) :
    ((finalPassGo images seen).map (fun r => r.src)).Nodup ∧
    ∀ r ∈ finalPassGo images seen, r.src ∉ seen := by
  induction images generalizing seen with
  | nil => simp [finalPassGo]
  | cons image rest ih =>
    simp only [finalPassGo]
    split_ifs with h1 h2
    · exact ⟨(ih seen).1, fun r hr => (ih seen).2 r hr⟩
    · constructor
      · simp only [List.map_cons, List.nodup_cons]
        refine ⟨?_, (ih (normalizeUrl image.src :: seen)).1⟩
        intro hmem
        rcases List.mem_map.mp hmem with ⟨r, hr, hsrc⟩
        exact (ih (normalizeUrl image.src :: seen)).2 r hr
          (hsrc ▸ List.mem_cons_self _ _)
      · intro r hr
        rcases List.mem_cons.mp hr with rfl | hr2
        · exact h2
        · exact fun hmem => (ih (normalizeUrl image.src :: seen)).2 r hr2
            (List.mem_cons_of_mem _ hmem)
    · exact ⟨(ih seen).1, fun r hr => (ih seen).2 r hr⟩

/-- C5: in the final output of one extraction pass, source strings
(post-normalization) are unique; two surviving candidates whose sources
normalize to the same string produce exactly one record — the first one,
carrying the normalized source; and
`https://site.com/a?utm_source=x&b=2` normalizes to `https://site.com/a?b=2`. -/
theorem extractFinalPass_dedup :
    (∀ images : List ImageRecord,
      ((extractFinalPass images).map (fun r => r.src)).Nodup) ∧
    (∀ r1 r2 : ImageRecord, sizeFilterKeep r1 = true → sizeFilterKeep r2 = true →
      normalizeUrl r1.src = normalizeUrl r2.src →
      extractFinalPass [r1, r2] = [{ r1 with src := normalizeUrl r1.src }]) ∧
    normalizeUrl "https://site.com/a?utm_source=x&b=2".toList =
      "https://site.com/a?b=2".toList := by
  refine ⟨fun images => (finalPassGo_src_nodup images []).1, ?_, by decide⟩
  intro r1 r2 h1 h2 hnorm
  simp [extractFinalPass, finalPassGo, h1, h2, ← hnorm]

/-- Closed witness for C5 at two concrete surviving candidates whose
sources normalize to the same string. -/
theorem extractFinalPass_dedup_witness :
    extractFinalPass
        [⟨"https://site.com/a?utm_source=x&b=2".toList, [], 100, 100, "png".toList, "img".toList⟩,
         ⟨"https://site.com/a?b=2".toList, [], 50, 60, "png".toList, "img".toList⟩] =
      [⟨"https://site.com/a?b=2".toList, [], 100, 100, "png".toList, "img".toList⟩] := by
  have h := extractFinalPass_dedup.2.1
    ⟨"https://site.com/a?utm_source=x&b=2".toList, [], 100, 100, "png".toList, "img".toList⟩
    ⟨"https://site.com/a?b=2".toList, [], 50, 60, "png".toList, "img".toList⟩
    (by decide) (by decide) (by decide)
  rw [h]
  decide

/-! ## Binary sniffer (`detectImageTypeByMagicNumber`, content.js 284-388)

The `ArrayBuffer` is a `List Nat` of bytes.  `DataView.getUint8/16/32`
reads are big-endian (the DataView default) and throw a `RangeError` when
the read extends past the end of the buffer; in the source every read is
range-guarded by a preceding `byteLength` test except the `getUint32(12)`
reads of the AVIF and HEIC branches, whose guard (`byteLength >= 12`) does
not cover offset 12..15.  Those two reads are therefore modelled as
`Except`-failing (`getUint32E`); the guarded reads use total `getD`
accessors.  The thrown `RangeError` is caught by the function's outer
`try/catch`, which returns `'unknown'`. -/

def getU8 (b : List Nat) (i : Nat) : Nat := b.getD i 0

def getU16 (b : List Nat) (i : Nat) : Nat := 256 * getU8 b i + getU8 b (i + 1)

def getU32 (b : List Nat) (i : Nat) : Nat :=
  256 * (256 * (256 * getU8 b i + getU8 b (i + 1)) + getU8 b (i + 2)) + getU8 b (i + 3)

/-- The ICO, TIFF and HEIC checks (content.js 357-383), ending in
`'unknown'`.  In the HEIC branch the `16 ≤ b.length` test is the range
check of the `getUint32(12)` read for `brand2`: under the source's own
`byteLength >= 12` guard that read throws a `RangeError` on a 12–15 byte
buffer (`.error`), and the source evaluates `brand2` before comparing
`brand1`, so the throw wins even when `brand1` alone would match. -/
def detectIcoOnward (b : List Nat) : Except Unit (List Char) :=
  if 6 ≤ b.length ∧ getU16 b 0 = 0 ∧ getU16 b 2 = 1 then .ok "ico".toList
  else if 4 ≤ b.length ∧ ((getU16 b 0 = 0x4D4D ∧ getU16 b 2 = 42) ∨
      (getU16 b 0 = 0x4949 ∧ getU16 b 2 = 42)) then .ok "tiff".toList
  else if 12 ≤ b.length ∧ getU32 b 4 = 0x66747970 then
    if 16 ≤ b.length then
      if getU32 b 8 = 0x68656963 ∨ getU32 b 8 = 0x68656966 ∨
          getU32 b 12 = 0x68656963 ∨ getU32 b 12 = 0x68656966 then .ok "heic".toList
      else .ok "unknown".toList
    else .error ()
  else .ok "unknown".toList

/-- The AVIF check (content.js 344-354), falling through to
`detectIcoOnward`: under a `byteLength >= 12` guard, `'ftyp'` at offset 4
leads to brand reads at offsets 8 and 12; as in `detectIcoOnward`, the
`16 ≤ b.length` test is the range check of the throwing `getUint32(12)`
read, which the source evaluates before any brand comparison. -/
def detectAvifOnward (b : List Nat) : Except Unit (List Char) :=
  if 12 ≤ b.length ∧ getU32 b 4 = 0x66747970 then
    if 16 ≤ b.length then
      if getU32 b 8 = 0x61766966 ∨ getU32 b 8 = 0x61766973 ∨
          getU32 b 12 = 0x61766966 ∨ getU32 b 12 = 0x61766973 then .ok "avif".toList
      else detectIcoOnward b
    else .error ()
  else detectIcoOnward b

/-- The body of `detectImageTypeByMagicNumber`'s `try` block
(content.js 286-383). -/
def detectImageTypeByMagicNumberE (b : List Nat) : Except Unit (List Char) :=
  if b.length = 0 then .ok "unknown".toList
  else if 2 ≤ b.length ∧ getU8 b 0 = 0xFF ∧ getU8 b 1 = 0xD8 then
    -- the JPEG trailer check (content.js 294-300) returns 'jpg' either way
    if 4 ≤ b.length ∧ getU8 b (b.length - 2) = 0xFF ∧ getU8 b (b.length - 1) = 0xD9 then
      .ok "jpg".toList
    else .ok "jpg".toList
  else if 8 ≤ b.length ∧ getU8 b 0 = 0x89 ∧ getU8 b 1 = 0x50 ∧ getU8 b 2 = 0x4E ∧
      getU8 b 3 = 0x47 ∧ getU8 b 4 = 0x0D ∧ getU8 b 5 = 0x0A ∧ getU8 b 6 = 0x1A ∧
      getU8 b 7 = 0x0A then .ok "png".toList
  else if 6 ≤ b.length ∧ ((getU8 b 0 = 0x47 ∧ getU8 b 1 = 0x49 ∧ getU8 b 2 = 0x46) ∨
      (getU8 b 0 = 0x47 ∧ getU8 b 1 = 0x49 ∧ getU8 b 2 = 0x66)) then .ok "gif".toList
  else if 2 ≤ b.length ∧ getU8 b 0 = 0x42 ∧ getU8 b 1 = 0x4D then .ok "bmp".toList
  else if 12 ≤ b.length ∧ getU8 b 0 = 0x52 ∧ getU8 b 1 = 0x49 ∧ getU8 b 2 = 0x46 ∧
      getU8 b 3 = 0x46 ∧ getU8 b 8 = 0x57 ∧ getU8 b 9 = 0x45 ∧ getU8 b 10 = 0x42 ∧
      getU8 b 11 = 0x50 then .ok "webp".toList
  else detectAvifOnward b

/-- Embedding of `detectImageTypeByMagicNumber` (content.js 284-388): the `try` body,
with its `catch` returning `'unknown'`. -/
def detectImageTypeByMagicNumber (b : List Nat) : List Char :=
  match detectImageTypeByMagicNumberE b with
  | .ok s => s
  | .error _ => "unknown".toList

/-- The minimum buffer length each detection branch of the sniffer
requires before it can return its tag (from the source's `byteLength`
guards; for `avif`/`heic` the bound is 16 because the brand comparison is
reached only when the `getUint32(12)` read was in range). -/
def signatureMinLength (s : List Char) : Nat :=
  if s = "jpg".toList then 2 else if s = "png".toList then 8
  else if s = "gif".toList then 6 else if s = "bmp".toList then 2
  else if s = "webp".toList then 12 else if s = "avif".toList then 16
  else if s = "ico".toList then 6 else if s = "tiff".toList then 4
  else if s = "heic".toList then 16 else 0

theorem detectIcoOnward_spec (b : List Nat) (s : List Char)
    (h : detectIcoOnward b = .ok s) :
    s ∈ ["ico".toList, "tiff".toList, "heic".toList, "unknown".toList] ∧
    signatureMinLength s ≤ b.length := by
  unfold detectIcoOnward at h
  split_ifs at h with h1 h2 h3 h4 h5
  · injection h with h; subst h
    exact ⟨by decide, by
      rw [show signatureMinLength "ico".toList = 6 from by decide]; exact h1.1⟩
  · injection h with h; subst h
    exact ⟨by decide, by
      rw [show signatureMinLength "tiff".toList = 4 from by decide]; exact h2.1⟩
  · injection h with h; subst h
    exact ⟨by decide, by
      rw [show signatureMinLength "heic".toList = 16 from by decide]; exact h4⟩
  · injection h with h; subst h
    exact ⟨by decide, by
      rw [show signatureMinLength "unknown".toList = 0 from by decide]; exact Nat.zero_le _⟩
  · injection h with h; subst h
    exact ⟨by decide, by
      rw [show signatureMinLength "unknown".toList = 0 from by decide]; exact Nat.zero_le _⟩

theorem detectAvifOnward_spec (b : List Nat) (s : List Char)
    (h : detectAvifOnward b = .ok s) :
    s ∈ ["avif".toList, "ico".toList, "tiff".toList, "heic".toList, "unknown".toList] ∧
    signatureMinLength s ≤ b.length := by
  unfold detectAvifOnward at h
  split_ifs at h with h1 h2 h3
  · injection h with h; subst h
    exact ⟨by decide, by
      rw [show signatureMinLength "avif".toList = 16 from by decide]; exact h2⟩
  · have hspec := detectIcoOnward_spec b s h
    exact ⟨List.mem_cons_of_mem _ hspec.1, hspec.2⟩
  · have hspec := detectIcoOnward_spec b s h
    exact ⟨List.mem_cons_of_mem _ hspec.1, hspec.2⟩

theorem detectE_spec (b : List Nat) (s : List Char)
    (h : detectImageTypeByMagicNumberE b = .ok s) :
    s ∈ ["jpg".toList, "png".toList, "gif".toList, "bmp".toList, "webp".toList,
      "avif".toList, "ico".toList, "tiff".toList, "heic".toList, "unknown".toList] ∧
    signatureMinLength s ≤ b.length := by
  unfold detectImageTypeByMagicNumberE at h
  split_ifs at h with h0 h1 h2 h3 h4 h5 h6
  · injection h with h; subst h
    exact ⟨by decide, by
      rw [show signatureMinLength "unknown".toList = 0 from by decide]; exact Nat.zero_le _⟩
  · injection h with h; subst h
    exact ⟨by decide, by
      rw [show signatureMinLength "jpg".toList = 2 from by decide]; exact h1.1⟩
  · injection h with h; subst h
    exact ⟨by decide, by
      rw [show signatureMinLength "jpg".toList = 2 from by decide]; exact h1.1⟩
  · injection h with h; subst h
    exact ⟨by decide, by
      rw [show signatureMinLength "png".toList = 8 from by decide]; exact h3.1⟩
  · injection h with h; subst h
    exact ⟨by decide, by
      rw [show signatureMinLength "gif".toList = 6 from by decide]; exact h4.1⟩
  · injection h with h; subst h
    exact ⟨by decide, by
      rw [show signatureMinLength "bmp".toList = 2 from by decide]; exact h5.1⟩
  · injection h with h; subst h
    exact ⟨by decide, by
      rw [show signatureMinLength "webp".toList = 12 from by decide]; exact h6.1⟩
  · have hspec := detectAvifOnward_spec b s h
    refine ⟨?_, hspec.2⟩
    have hsub : ∀ x ∈ ["avif".toList, "ico".toList, "tiff".toList, "heic".toList,
        "unknown".toList], x ∈ ["jpg".toList, "png".toList, "gif".toList, "bmp".toList,
        "webp".toList, "avif".toList, "ico".toList, "tiff".toList, "heic".toList,
        "unknown".toList] := by decide
    exact hsub s hspec.1

/-- C2: the binary sniffer is total — on every byte buffer it returns one
of the nine format tags or `'unknown'` (the `catch` turns the reachable
`RangeError` of the ftyp-branch `getUint32(12)` read into `'unknown'`);
any buffer shorter than 2 bytes (the smallest signature) yields
`'unknown'`; and each format tag is only ever returned when the buffer is
at least as long as that format's check requires, so any buffer shorter
than a format's minimum signature length yields `'unknown'` for that
format's check. -/
theorem detectImageTypeByMagicNumber_total (b : List Nat) :
    detectImageTypeByMagicNumber b ∈
      ["jpg".toList, "png".toList, "gif".toList, "bmp".toList, "webp".toList,
       "avif".toList, "ico".toList, "tiff".toList, "heic".toList, "unknown".toList] ∧
    (b.length < 2 → detectImageTypeByMagicNumber b = "unknown".toList) ∧
    signatureMinLength (detectImageTypeByMagicNumber b) ≤ b.length := by
  have hmem : detectImageTypeByMagicNumber b ∈
      ["jpg".toList, "png".toList, "gif".toList, "bmp".toList, "webp".toList,
       "avif".toList, "ico".toList, "tiff".toList, "heic".toList, "unknown".toList] := by
    unfold detectImageTypeByMagicNumber
    cases hE : detectImageTypeByMagicNumberE b with
    | error e => simp
    | ok s => exact (detectE_spec b s hE).1
  have hmin : signatureMinLength (detectImageTypeByMagicNumber b) ≤ b.length := by
    unfold detectImageTypeByMagicNumber
    cases hE : detectImageTypeByMagicNumberE b with
    | error e =>
      rw [show signatureMinLength "unknown".toList = 0 from by decide]
      exact Nat.zero_le _
    | ok s => exact (detectE_spec b s hE).2
  refine ⟨hmem, ?_, hmin⟩
  intro hlen
  by_contra hne
  have h2 : ∀ x ∈ ["jpg".toList, "png".toList, "gif".toList, "bmp".toList, "webp".toList,
      "avif".toList, "ico".toList, "tiff".toList, "heic".toList, "unknown".toList],
      x ≠ "unknown".toList → 2 ≤ signatureMinLength x := by decide
  have := h2 _ hmem hne
  omega

/-- Closed witness for C2 at the empty buffer: shorter than every
signature, it yields `'unknown'`. -/
theorem detectImageTypeByMagicNumber_total_witness :
    detectImageTypeByMagicNumber [] = "unknown".toList := by
  exact (detectImageTypeByMagicNumber_total []).2.1 (by decide)

set_option maxHeartbeats 1600000 in
/-- C3: the sniffer's checks run in a fixed order with the first match
winning — every buffer whose first two bytes are `FF D8` returns `'jpg'`
(in particular `[FF D8 00 00]`), while every buffer beginning with the
8-byte PNG signature returns `'png'`, never `'jpg'`. -/
theorem detectImageTypeByMagicNumber_priority (b : List Nat) :
    (2 ≤ b.length → getU8 b 0 = 0xFF → getU8 b 1 = 0xD8 →
      detectImageTypeByMagicNumber b = "jpg".toList) ∧
    (∀ rest : List Nat, detectImageTypeByMagicNumber
      ([0x89, 0x50, 0x4E, 0x47, 0x0D, 0x0A, 0x1A, 0x0A] ++ rest) = "png".toList) ∧
    detectImageTypeByMagicNumber [0xFF, 0xD8, 0x00, 0x00] = "jpg".toList ∧
    detectImageTypeByMagicNumber [0x89, 0x50, 0x4E, 0x47, 0x0D, 0x0A, 0x1A, 0x0A] =
      "png".toList ∧
    "png".toList ≠ "jpg".toList := by
  refine ⟨?_, ?_, by decide, by decide, by decide⟩
  · intro hlen h0 h1
    unfold detectImageTypeByMagicNumber detectImageTypeByMagicNumberE
    split_ifs <;> first | rfl | (exfalso; omega)
  · intro rest
    have e0 : getU8 ([0x89, 0x50, 0x4E, 0x47, 0x0D, 0x0A, 0x1A, 0x0A] ++ rest) 0 = 0x89 := rfl
    have e1 : getU8 ([0x89, 0x50, 0x4E, 0x47, 0x0D, 0x0A, 0x1A, 0x0A] ++ rest) 1 = 0x50 := rfl
    have e2 : getU8 ([0x89, 0x50, 0x4E, 0x47, 0x0D, 0x0A, 0x1A, 0x0A] ++ rest) 2 = 0x4E := rfl
    have e3 : getU8 ([0x89, 0x50, 0x4E, 0x47, 0x0D, 0x0A, 0x1A, 0x0A] ++ rest) 3 = 0x47 := rfl
    have e4 : getU8 ([0x89, 0x50, 0x4E, 0x47, 0x0D, 0x0A, 0x1A, 0x0A] ++ rest) 4 = 0x0D := rfl
    have e5 : getU8 ([0x89, 0x50, 0x4E, 0x47, 0x0D, 0x0A, 0x1A, 0x0A] ++ rest) 5 = 0x0A := rfl
    have e6 : getU8 ([0x89, 0x50, 0x4E, 0x47, 0x0D, 0x0A, 0x1A, 0x0A] ++ rest) 6 = 0x1A := rfl
    have e7 : getU8 ([0x89, 0x50, 0x4E, 0x47, 0x0D, 0x0A, 0x1A, 0x0A] ++ rest) 7 = 0x0A := rfl
    have elen : ([0x89, 0x50, 0x4E, 0x47, 0x0D, 0x0A, 0x1A, 0x0A] ++ rest).length
        = 8 + rest.length := by simp; omega
    unfold detectImageTypeByMagicNumber detectImageTypeByMagicNumberE
    rw [if_neg (by omega), if_neg (by intro hc; omega),
      if_pos ⟨by omega, e0, e1, e2, e3, e4, e5, e6, e7⟩]

/-- Closed witness for C3 at the claim's two concrete buffers. -/
theorem detectImageTypeByMagicNumber_priority_witness :
    detectImageTypeByMagicNumber [0xFF, 0xD8, 0x00, 0x00] = "jpg".toList ∧
    detectImageTypeByMagicNumber ([0x89, 0x50, 0x4E, 0x47, 0x0D, 0x0A, 0x1A, 0x0A] ++ [0x1]) =
      "png".toList := by
  exact ⟨(detectImageTypeByMagicNumber_priority [0xFF, 0xD8, 0x00, 0x00]).1
      (by decide) (by decide) (by decide),
    (detectImageTypeByMagicNumber_priority []).2.1 [0x1]⟩

/-! ## URL heuristic classifier (`getImageType`, content.js 1576-1699) -/

/-- JS `String.prototype.includes`: substring containment. -/
def includesSub (l sub : List Char) : Bool := decide (List.IsInfix sub l)

/-- The leading `'data:image/'` of a data URI. -/
def dataImageHead : List Char := "data:image/".toList

/-- The supported-extension list of content.js 1627. -/
def supportedExtensions : List (List Char) :=
  ["jpg".toList, "png".toList, "svg".toList, "webp".toList, "gif".toList,
   "bmp".toList, "ico".toList, "tiff".toList, "tif".toList, "apng".toList,
   "avif".toList]

/-- Embedding of the regex `/\.([^.]+)$/` capture on the query/hash-stripped
URL, lower-cased as at content.js 1590-1592: the nonempty suffix after the
last dot (no match when there is no dot or the URL ends in a dot). -/
def extensionOf (cleanUrl : List Char) : List Char :=
  if '.' ∈ cleanUrl then
    let afterLast := (cleanUrl.reverse.takeWhile (· != '.')).reverse
    if afterLast ≠ [] then toLowerStr afterLast else []
  else []

/-- The format-keyword scan over the lowercased URL used when no extension
matched (content.js 1597-1618), in source order: `jpg`/`jpeg` first, then
`png`, `svg`, `webp`, `gif`, `bmp`, `ico`, `tiff`/`tif`, `apng`, `avif`. -/
def keywordScan (urlLower : List Char) : Option (List Char) :=
  if includesSub urlLower "jpg".toList || includesSub urlLower "jpeg".toList then
    some "jpg".toList
  else if includesSub urlLower "png".toList then some "png".toList
  else if includesSub urlLower "svg".toList then some "svg".toList
  else if includesSub urlLower "webp".toList then some "webp".toList
  else if includesSub urlLower "gif".toList then some "gif".toList
  else if includesSub urlLower "bmp".toList then some "bmp".toList
  else if includesSub urlLower "ico".toList then some "ico".toList
  else if includesSub urlLower "tiff".toList || includesSub urlLower "tif".toList then
    some "tiff".toList
  else if includesSub urlLower "apng".toList then some "apng".toList
  else if includesSub urlLower "avif".toList then some "avif".toList
  else none

/-- Handling of a nonempty (already lower-cased) extension
(content.js 1620-1630): `jpeg` collapses to `jpg`, members of the
supported set are returned as-is (including `tif`), anything else falls
through. -/
def extensionResult (extension : List Char) : Option (List Char) :=
  if extension = "jpeg".toList then some "jpg".toList
  else if extension ∈ supportedExtensions then some extension
  else none

/-- The `format=`/`type=` query-parameter scan (content.js 1632-1658);
`url.split('?')[1]` is empty both when there is no query string and when
it is empty, and both are falsy in the source. -/
def paramsScan (url : List Char) : Option (List Char) :=
  let urlParams := (url.splitOn '?').tail.headI
  if urlParams ≠ [] then
    let paramsLower := toLowerStr urlParams
    if includesSub paramsLower "format=png".toList ||
        includesSub paramsLower "type=png".toList then some "png".toList
    else if includesSub paramsLower "format=jpg".toList ||
        includesSub paramsLower "type=jpg".toList ||
        includesSub paramsLower "format=jpeg".toList ||
        includesSub paramsLower "type=jpeg".toList then some "jpg".toList
    else if includesSub paramsLower "format=webp".toList ||
        includesSub paramsLower "type=webp".toList then some "webp".toList
    else if includesSub paramsLower "format=gif".toList ||
        includesSub paramsLower "type=gif".toList then some "gif".toList
    else if includesSub paramsLower "format=avif".toList ||
        includesSub paramsLower "type=avif".toList then some "avif".toList
    else if includesSub paramsLower "format=heic".toList ||
        includesSub paramsLower "type=heic".toList then some "heic".toList
    else if includesSub paramsLower "format=heif".toList ||
        includesSub paramsLower "type=heif".toList then some "heic".toList
    else none
  else none

/-- The per-format directory-segment scan (content.js 1661-1667). -/
def pathScan (urlLower : List Char) : Option (List Char) :=
  if includesSub urlLower "/png/".toList || includesSub urlLower "/images/png/".toList ||
      includesSub urlLower "/img/png/".toList then some "png".toList
  else if includesSub urlLower "/jpg/".toList ||
      includesSub urlLower "/images/jpg/".toList ||
      includesSub urlLower "/img/jpg/".toList ||
      includesSub urlLower "/jpeg/".toList ||
      includesSub urlLower "/images/jpeg/".toList ||
      includesSub urlLower "/img/jpeg/".toList then some "jpg".toList
  else none

/-- The embedded `image/<subtype>` MIME-token scan (content.js 1670-1696). -/
def mimeScan (urlLower : List Char) : Option (List Char) :=
  if includesSub urlLower "image/jpeg".toList ||
      includesSub urlLower "image/jpg".toList then some "jpg".toList
  else if includesSub urlLower "image/png".toList then some "png".toList
  else if includesSub urlLower "image/svg".toList then some "svg".toList
  else if includesSub urlLower "image/webp".toList then some "webp".toList
  else if includesSub urlLower "image/gif".toList then some "gif".toList
  else if includesSub urlLower "image/bmp".toList then some "bmp".toList
  else if includesSub urlLower "image/avif".toList then some "avif".toList
  else if includesSub urlLower "image/tiff".toList then some "tiff".toList
  else if includesSub urlLower "image/ico".toList then some "ico".toList
  else none

/-- Embedding of `getImageType` (content.js 1576-1699).  The data-URI
branch embeds the regex `url.match(/data:image\/(.*?);/)`: with the
`startsWith('data:image/')` guard the lazy capture is exactly the text
between the prefix and the first following `';'`, and the regex fails (so
`'base64'` is returned) exactly when no `';'` follows the prefix. -/
def getImageType (url : List Char) : List Char :=
  if dataImageHead.isPrefixOf url then
    let rest := url.drop dataImageHead.length
    if ';' ∈ rest then rest.takeWhile (· != ';') else "base64".toList
  else
    let cleanUrl := (url.takeWhile (· != '?')).takeWhile (· != '#')
    let extension := extensionOf cleanUrl
    let urlLower := toLowerStr url
    match (if extension = [] then keywordScan urlLower else extensionResult extension) with
    | some t => t
    | none =>
      match paramsScan url with
      | some t => t
      | none =>
        match pathScan urlLower with
        | some t => t
        | none =>
          match mimeScan urlLower with
          | some t => t
          | none => "unknown".toList

theorem takeWhile_append_cons (p : Char → Bool) (a : List Char) (x : Char)
    (b : List Char) (ha : ∀ c ∈ a, p c = true) (hx : p x = false) :
    (a ++ x :: b).takeWhile p = a := by
  induction a with
  | nil => simp [List.takeWhile, hx]
  | cons c t ih =>
    have hc : p c = true := ha c (List.mem_cons_self c t)
    simp only [List.cons_append, List.takeWhile_cons, hc, if_true]
    rw [ih (fun d hd => ha d (List.mem_cons_of_mem c hd))]

/-- C7 counterexample: on the data URI `data:image/jpeg;base64,...` the
classifier returns the subtype `'jpeg'` verbatim — it is not collapsed to
`'jpg'` (and upper-case subtypes are likewise not case-folded). -/
theorem getImageType_dataUri_counterexample :
    getImageType "data:image/jpeg;base64,abc".toList = "jpeg".toList ∧
    "jpeg".toList ≠ "jpg".toList ∧
    getImageType "data:image/PNG;x".toList = "PNG".toList := by
  decide

/-- C7 (amended): for a data URI `data:image/<subtype>;...` the classifier
returns the declared subtype exactly as written (no case folding, no
`jpeg→jpg` collapse), and returns `'base64'` when no `';'` follows the
`data:image/` prefix. -/
theorem getImageType_dataUri (sub rest : List Char) (hsub : ';' ∉ sub) :
    getImageType (dataImageHead ++ (sub ++ ';' :: rest)) = sub ∧
    (';' ∉ rest → getImageType (dataImageHead ++ rest) = "base64".toList) := by
  constructor
  · rw [getImageType,
      if_pos (List.isPrefixOf_iff_prefix.mpr (List.prefix_append _ _))]
    simp only [dataImageHead, List.drop_left]
    rw [if_pos (by simp), takeWhile_append_cons _ sub ';' rest
      (fun c hc => by
        simp only [bne_iff_ne, ne_eq, decide_eq_true_eq]
        exact fun h => hsub (h ▸ hc)) (by simp)]
  · intro hrest
    rw [getImageType,
      if_pos (List.isPrefixOf_iff_prefix.mpr (List.prefix_append _ _))]
    simp only [List.drop_left]
    rw [if_neg hrest]

/-- Closed witness for C7's amended statement at `data:image/jpeg;x`. -/
theorem getImageType_dataUri_witness :
    getImageType (dataImageHead ++ ("jpeg".toList ++ ';' :: "x".toList)) =
      "jpeg".toList := by
  exact (getImageType_dataUri "jpeg".toList "x".toList (by decide)).1

/-- C8 counterexample: `pngjpg` has no extension and contains both `png`
and `jpg` as substrings, and the classifier returns `'jpg'` — the
`jpg`/`jpeg` keyword check runs before the `png` check, not after. -/
theorem getImageType_keyword_counterexample :
    getImageType "pngjpg".toList = "jpg".toList ∧
    "jpg".toList ≠ "png".toList := by
  decide

/-- C8 (amended): for a non-data URL whose path yields no extension match,
the classifier scans the full lowercased URL for the format keywords in
the priority order `jpg`/`jpeg`, `png`, `svg`, `webp`, `gif`, `bmp`,
`ico`, `tiff`/`tif`, `apng`, `avif` (the order of `keywordScan`, taken
from the source) and returns the first keyword present; in particular a
URL containing both `png` and `jpg` yields `'jpg'`. -/
theorem getImageType_keywordScan (url t : List Char)
    (hdata : dataImageHead.isPrefixOf url = false)
    (hext : extensionOf ((url.takeWhile (· != '?')).takeWhile (· != '#')) = [])
    (hscan : keywordScan (toLowerStr url) = some t) :
    getImageType url = t := by
  rw [getImageType, if_neg (by simp [hdata])]
  simp [hext, hscan]

/-- Closed witness for C8's amended statement at `pngjpg`. -/
theorem getImageType_keywordScan_witness :
    getImageType "pngjpg".toList = "jpg".toList := by
  exact getImageType_keywordScan "pngjpg".toList "jpg".toList
    (by decide) (by decide) (by decide)

/-! ## SVG dimension resolver (`parseSvgDimensions`, content.js 8-183)

The XML parse itself is performed by the external `fast-xml-parser`
library (and a `DOMParser` fallback), so it is abstracted: the embedding
takes the already-parsed root `<svg>` element as a record of its
attribute strings, and embeds the attribute/viewBox/style resolution logic
of the `fxp` branch (content.js 34-83).  The `DOMParser` fallback path
(content.js 91-177) repeats the same first three methods before two
live-DOM-only ones, and is entered exactly when the `fxp` branch falls
through; the embedding returns `none` in that case.  Attribute values are
modelled as raw strings (the source's `parseAttributeValue: true` option
turns purely numeric attributes into numbers, on which `.match` throws,
likewise falling back to `DOMParser`). -/

/-- The parsed root `svg` element's attributes, as the `fxp` branch reads
them. -/
structure SvgElement where
  width : Option (List Char)
  height : Option (List Char)
  viewBox : Option (List Char)
  style : Option (List Char)
  deriving Repr

/-- A JavaScript value held by the `width`/`height` locals of
`parseSvgDimensions`: a string (from an attribute or style match) or a
number (from `parseFloat` of a viewBox component, `none` being `NaN`). -/
inductive JsVal where
  | str (s : List Char)
  | num (q : Option ℚ)
  deriving Repr

/-- JavaScript truthiness of the `width`/`height` locals: `null` and `NaN`
and the number `0` are falsy; a string from a regex match is nonempty and
truthy. -/
def truthy : Option JsVal → Bool
  | none => false
  | some (.str s) => !s.isEmpty
  | some (.num none) => false
  | some (.num (some q)) => decide (q ≠ 0)

/-- One character of JavaScript regex whitespace `\s` (the forms that can
occur inside an attribute string). -/
def isJsSpace (c : Char) : Bool :=
  c == ' ' || c == '\t' || c == '\n' || c == '\r'

/-- Embedding of `viewBox.split(/\s+/).filter(part => part)`
(content.js 52): the maximal whitespace-free runs. -/
def fieldsWs (l : List Char) : List (List Char) :=
  (l.splitOnP isJsSpace).filter (· ≠ [])

/-- Numeric value of a digit string. -/
def digitsToNat (ds : List Char) : Nat :=
  ds.foldl (fun acc c => 10 * acc + (c.toNat - '0'.toNat)) 0

/-- Embedding of `parseFloat` on the decimal numerals that occur in SVG
attributes: optional sign, digits, optional fractional part (`none` is
`NaN`; scientific notation is not modelled, the source never produces
it here). -/
def jsParseFloat (l : List Char) : Option ℚ :=
  let neg := match l with | '-' :: _ => true | _ => false
  let l1 := match l with | '-' :: t => t | '+' :: t => t | t => t
  let intPart := l1.takeWhile Char.isDigit
  let rest1 := l1.dropWhile Char.isDigit
  let fracPart := match rest1 with
    | '.' :: t => t.takeWhile Char.isDigit
    | _ => []
  if intPart = [] ∧ fracPart = [] then none
  else
    let mag : ℚ :=
      (digitsToNat intPart : ℚ) + (digitsToNat fracPart : ℚ) / ((10 : ℚ) ^ fracPart.length)
    some (if neg then -mag else mag)

/-- Embedding of the regex `/([\d.]+)/` first capture: the first maximal
run of digits and dots. -/
def firstNumRun : List Char → Option (List Char)
  | [] => none
  | c :: rest =>
    if c.isDigit || c == '.' then
      some ((c :: rest).takeWhile (fun x => x.isDigit || x == '.'))
    else firstNumRun rest

/-- The suffix of `l` after the first occurrence of `pat`, when present. -/
def afterFirst : List Char → List Char → Option (List Char)
  | [], pat => if pat.isPrefixOf [] then some [] else none
  | l@(_ :: t), pat =>
    if pat.isPrefixOf l then some (l.drop pat.length) else afterFirst t pat

/-- Embedding of the style regexes
`/width:\s*([\d.]+)\s*(px|…)?/` (content.js 66-67): after the first
`width:`/`height:`, skip whitespace and capture the digit/dot run
(simplified to the first occurrence; the claims exercised here never
reach this method). -/
def styleDim (style key : List Char) : Option (List Char) :=
  (afterFirst style (key ++ [':'])).bind fun s =>
    let run := (s.dropWhile isJsSpace).takeWhile (fun x => x.isDigit || x == '.')
    if run ≠ [] then some run else none

/-- Method 1 (content.js 39-46): a present, nonempty attribute string is
matched against `/([\d.]+)/`; the capture (itself nonempty) replaces the
`null` local, otherwise the local stays `null`. -/
def attrNum (attr : Option (List Char)) : Option JsVal :=
  match attr with
  | some s => if s ≠ [] then (firstNumRun s).map JsVal.str else none
  | none => none

/-- Embedding of `width ? parseFloat(width) : 0` (content.js 74-75):
falsy values give the number `0`, a truthy string is parsed
(possibly to `NaN`), a truthy number is itself. -/
def jsNumberOf (v : Option JsVal) : Option ℚ :=
  if truthy v then
    match v with
    | some (.str s) => jsParseFloat s
    | some (.num q) => q
    | none => some 0
  else some 0

/-- Embedding of `Math.round` on a rational: half-up rounding. -/
def jsRound (q : ℚ) : ℤ := ⌊q + 1 / 2⌋

/-- The `fxp` branch of `parseSvgDimensions` (content.js 34-83) on the
parsed root element: attribute method, then viewBox method, then style
method, then the positivity check and the `[1, 50000]` clamp with
`Math.round`.  Returns `none` when the branch falls through to the
`DOMParser` fallback (dimensions not both positive). -/
def parseSvgDimensionsFxp (el : SvgElement) : Option (ℤ × ℤ) :=
  let width0 := attrNum el.width
  let height0 := attrNum el.height
  let wh1 :=
    if !truthy width0 || !truthy height0 then
      match el.viewBox with
      | some viewBox =>
        let viewBoxParts := fieldsWs viewBox
        if 4 ≤ viewBoxParts.length then
          let vbWidth := JsVal.num (jsParseFloat (viewBoxParts.getD 2 []))
          let vbHeight := JsVal.num (jsParseFloat (viewBoxParts.getD 3 []))
          ((if truthy width0 then width0 else some vbWidth),
            (if truthy height0 then height0 else some vbHeight))
        else (width0, height0)
      | none => (width0, height0)
    else (width0, height0)
  let wh2 :=
    if !truthy wh1.1 || !truthy wh1.2 then
      match el.style with
      | some style =>
        ((match styleDim style "width".toList with
          | some run => if !truthy wh1.1 then some (JsVal.str run) else wh1.1
          | none => wh1.1),
          (match styleDim style "height".toList with
          | some run => if !truthy wh1.2 then some (JsVal.str run) else wh1.2
          | none => wh1.2))
      | none => wh1
    else wh1
  let widthNum := jsNumberOf wh2.1
  let heightNum := jsNumberOf wh2.2
  match widthNum, heightNum with
  | some w, some h =>
    if 0 < w ∧ 0 < h then
      some (jsRound (min (max w 1) 50000), jsRound (min (max h 1) 50000))
    else none
  | _, _ => none

theorem svgViewBoxResolveAux (vb : List Char) (w h : ℚ)
    (hlen : 4 ≤ (fieldsWs vb).length)
    (hw : jsParseFloat ((fieldsWs vb).getD 2 []) = some w)
    (hh : jsParseFloat ((fieldsWs vb).getD 3 []) = some h)
    (hwpos : 0 < w) (hhpos : 0 < h) :
    parseSvgDimensionsFxp ⟨none, none, some vb, none⟩ =
      some (jsRound (min (max w 1) 50000), jsRound (min (max h 1) 50000)) := by
  have hwne : w ≠ 0 := ne_of_gt hwpos
  have hhne : h ≠ 0 := ne_of_gt hhpos
  simp only [List.getD_eq_getElem?_getD] at hw hh
  simp [parseSvgDimensionsFxp, attrNum, truthy, jsNumberOf, hw, hh, hlen, hwne, hhne,
    hwpos, hhpos]

theorem fieldsWs_half_example :
    (fieldsWs "0 0 0.5 80".toList).getD 2 [] = "0.5".toList ∧
    (fieldsWs "0 0 0.5 80".toList).getD 3 [] = "80".toList ∧
    4 ≤ (fieldsWs "0 0 0.5 80".toList).length := by
  decide

theorem jsParseFloat_half : jsParseFloat "0.5".toList = some (1 / 2 : ℚ) := by
  have h : jsParseFloat "0.5".toList =
      some ((digitsToNat ['0'] : ℚ) + (digitsToNat ['5'] : ℚ) / ((10 : ℚ) ^ (1 : ℕ))) := rfl
  have d0 : digitsToNat ['0'] = 0 := by decide
  have d5 : digitsToNat ['5'] = 5 := by decide
  rw [h, d0, d5]
  norm_num

theorem jsParseFloat_eighty : jsParseFloat "80".toList = some (80 : ℚ) := by
  have h : jsParseFloat "80".toList =
      some ((digitsToNat ['8', '0'] : ℚ) + (digitsToNat [] : ℚ) / ((10 : ℚ) ^ (0 : ℕ))) := rfl
  have d1 : digitsToNat ['8', '0'] = 80 := by decide
  have d0 : digitsToNat [] = 0 := by decide
  rw [h, d1, d0]
  norm_num

/-- C9 counterexample: with viewBox `0 0 0.5 80` (third component the
numeric `0.5`) the resolver returns width `1`, not the component `0.5`:
the result is clamped to `[1, 50000]` and rounded (`Math.round` after
`Math.min(Math.max(·, 1), 50000)`), so it is not in general "the third
and fourth viewBox components". -/
theorem parseSvgDimensions_viewBox_counterexample :
    parseSvgDimensionsFxp ⟨none, none, some "0 0 0.5 80".toList, none⟩ =
      some (1, 80) ∧
    jsParseFloat "0.5".toList = some (1 / 2 : ℚ) ∧ ((1 : ℚ) ≠ 1 / 2) := by
  refine ⟨?_, jsParseFloat_half, by norm_num⟩
  have h := svgViewBoxResolveAux "0 0 0.5 80".toList (1 / 2) 80
    fieldsWs_half_example.2.2
    (by rw [fieldsWs_half_example.1]; exact jsParseFloat_half)
    (by rw [fieldsWs_half_example.2.1]; exact jsParseFloat_eighty)
    (by norm_num) (by norm_num)
  rw [h]
  norm_num [jsRound, max_def, min_def]

/-- C9 (amended): for a root element with no width/height attributes and a
viewBox of at least four components whose third and fourth parse to
positive numbers `w` and `h`, the resolver returns
`(round (clamp w), round (clamp h))` with the `[1, 50000]` clamp and
half-up rounding — hence exactly `{w, h}` whenever both are integers in
range, as in the claim's example `<svg viewBox="0 0 120 80"><rect/></svg>`
↦ `{120, 80}`. -/
theorem parseSvgDimensions_viewBox (vb : List Char) (w h : ℚ)
    (hlen : 4 ≤ (fieldsWs vb).length)
    (hw : jsParseFloat ((fieldsWs vb).getD 2 []) = some w)
    (hh : jsParseFloat ((fieldsWs vb).getD 3 []) = some h)
    (hwpos : 0 < w) (hhpos : 0 < h) :
    parseSvgDimensionsFxp ⟨none, none, some vb, none⟩ =
      some (jsRound (min (max w 1) 50000), jsRound (min (max h 1) 50000)) :=
  svgViewBoxResolveAux vb w h hlen hw hh hwpos hhpos

/-- Closed witness for C9's amended statement at the claim's example
element (the parse of `<svg viewBox="0 0 120 80"><rect/></svg>`): the
resolver yields `{120, 80}`. -/
theorem parseSvgDimensions_viewBox_witness :
    parseSvgDimensionsFxp ⟨none, none, some "0 0 120 80".toList, none⟩ =
      some (120, 80) := by
  have e2 : (fieldsWs "0 0 120 80".toList).getD 2 [] = "120".toList := by decide
  have e3 : (fieldsWs "0 0 120 80".toList).getD 3 [] = "80".toList := by decide
  have p120 : jsParseFloat "120".toList = some (120 : ℚ) := by
    have h : jsParseFloat "120".toList =
        some ((digitsToNat ['1', '2', '0'] : ℚ) +
          (digitsToNat [] : ℚ) / ((10 : ℚ) ^ (0 : ℕ))) := rfl
    have d1 : digitsToNat ['1', '2', '0'] = 120 := by decide
    have d0 : digitsToNat [] = 0 := by decide
    rw [h, d1, d0]
    norm_num
  have h := parseSvgDimensions_viewBox "0 0 120 80".toList 120 80
    (by decide) (by rw [e2]; exact p120) (by rw [e3]; exact jsParseFloat_eighty)
    (by norm_num) (by norm_num)
  rw [h]
  norm_num [jsRound, max_def, min_def]

/-! ## Network resolution strategy (`getImageTypeByFetch`, content.js 538-613)

Network effects are passed in explicitly: each entry of `attempts` is the
outcome of `fetch(url, config)` for one entry of `fetchConfigs` in order
(`none` models a throwing/timed-out fetch, `some r` a returned response).
A response records `response.ok`, `response.type`, the `Content-Type`
header (`none` when absent), and the body bytes (`none` models a failing
`response.arrayBuffer()`).  Every `throw` inside the `try` block lands in
the same `catch`, whose URL scan is `urlMimeScanFallback`. -/

/-- The observable parts of a `fetch` `Response` that the source reads. -/
structure FetchResponse where
  ok : Bool
  respType : List Char
  contentType : Option (List Char)
  body : Option (List Nat)

/-- The config loop of content.js 560-570: the `response` variable is
overwritten by each fetch that returns, and the loop breaks at the first
response with `ok` or type `'opaque'`; throwing fetches leave `response`
unchanged.  The result is the final value of `response` (`none` when every
fetch threw). -/
def pickResponse : List (Option FetchResponse) → Option FetchResponse
  | [] => none
  | attempt :: rest =>
    match attempt with
    | none => pickResponse rest
    | some r =>
      if r.ok || r.respType = "opaque".toList then some r
      else
        match pickResponse rest with
        | some r2 => some r2
        | none => some r

/-- The catch-block URL scan of content.js 600-611: the lowercased URL is
searched for `image/<subtype>` substrings in source order. -/
def urlMimeScanFallback (url : List Char) : List Char :=
  let urlLower := toLowerStr url
  if includesSub urlLower "image/jpeg".toList ||
      includesSub urlLower "image/jpg".toList then "jpg".toList
  else if includesSub urlLower "image/png".toList then "png".toList
  else if includesSub urlLower "image/gif".toList then "gif".toList
  else if includesSub urlLower "image/webp".toList then "webp".toList
  else if includesSub urlLower "image/bmp".toList then "bmp".toList
  else if includesSub urlLower "image/svg".toList then "svg".toList
  else if includesSub urlLower "image/avif".toList then "avif".toList
  else if includesSub urlLower "image/tiff".toList then "tiff".toList
  else if includesSub urlLower "image/ico".toList then "ico".toList
  else "unknown".toList

/-- The first-occurrence string replace of JS `String.prototype.replace`
with a plain-string pattern, used for `type.replace('+xml', '')`. -/
def replaceFirst : List Char → List Char → List Char → List Char
  | [], pat, repl => if pat.isPrefixOf [] then repl else []
  | l@(c :: t), pat, repl =>
    if pat.isPrefixOf l then repl ++ l.drop pat.length
    else c :: replaceFirst t pat repl

/-- Embedding of `getImageTypeByFetch` (content.js 538-613) over explicit
fetch outcomes.  An opaque response contributes only its `Content-Type`
header, matched by `/image\\/(.*)/` (under the `startsWith('image/')`
guard the capture is everything after the leading `image/`); a non-opaque
response's body is sniffed by the Binary Sniffer; every failure path falls
into the catch and ends at `urlMimeScanFallback`. -/
def getImageTypeByFetch (attempts : List (Option FetchResponse))
    (url : List Char) : List Char :=
  match pickResponse attempts with
  | none => urlMimeScanFallback url
  | some response =>
    if response.respType = "opaque".toList then
      match response.contentType with
      | some contentType =>
        if "image/".toList.isPrefixOf contentType then
          let t := toLowerStr (contentType.drop "image/".toList.length)
          if t = "jpeg".toList then "jpg".toList
          else if t ∈ ["jpg".toList, "png".toList, "gif".toList, "webp".toList,
              "bmp".toList, "svg+xml".toList, "avif".toList, "tiff".toList,
              "ico".toList] then
            replaceFirst t "+xml".toList []
          else urlMimeScanFallback url
        else urlMimeScanFallback url
      | none => urlMimeScanFallback url
    else
      match response.body with
      | some buffer => detectImageTypeByMagicNumber buffer
      | none => urlMimeScanFallback url

theorem pickResponse_all_none (attempts : List (Option FetchResponse))
    (h : ∀ a ∈ attempts, a = none) : pickResponse attempts = none := by
  induction attempts with
  | nil => rfl
  | cons attempt rest ih =>
    have h1 : attempt = none := h attempt (List.mem_cons_self _ _)
    subst h1
    exact ih (fun a ha => h a (List.mem_cons_of_mem _ ha))

/-- C10: `getImageTypeByFetch` never rejects — when every network attempt
fails it returns the result of scanning the lowercased URL for
`image/<subtype>` substrings (`jpeg`/`jpg` ↦ `jpg`, then `png`, `gif`,
`webp`, `bmp`, `svg`, `avif`, `tiff`, `ico`), and `'unknown'` when no such
substring is present. -/
theorem getImageTypeByFetch_allFail (attempts : List (Option FetchResponse))
    (url : List Char) (hfail : ∀ a ∈ attempts, a = none) :
    getImageTypeByFetch attempts url = urlMimeScanFallback url ∧
    ((∀ s ∈ ["image/jpeg".toList, "image/jpg".toList, "image/png".toList,
        "image/gif".toList, "image/webp".toList, "image/bmp".toList,
        "image/svg".toList, "image/avif".toList, "image/tiff".toList,
        "image/ico".toList], includesSub (toLowerStr url) s = false) →
      getImageTypeByFetch attempts url = "unknown".toList) := by
  have hpick : pickResponse attempts = none := pickResponse_all_none attempts hfail
  have hbase : getImageTypeByFetch attempts url = urlMimeScanFallback url := by
    rw [getImageTypeByFetch, hpick]
  refine ⟨hbase, fun hnone => ?_⟩
  rw [hbase, urlMimeScanFallback]
  rw [if_neg, if_neg, if_neg, if_neg, if_neg, if_neg, if_neg, if_neg, if_neg] <;>
    simp only [Bool.or_eq_true, not_or, Bool.not_eq_true] <;>
    first
    | exact hnone _ (by decide)
    | exact ⟨hnone _ (by decide), hnone _ (by decide)⟩

/-- Closed witness for C10: with both fetch configurations failing and a
URL carrying no `image/<subtype>` hint, the result is `'unknown'`. -/
theorem getImageTypeByFetch_allFail_witness :
    getImageTypeByFetch [none, none] "https://x.example/a".toList =
      "unknown".toList := by
  exact (getImageTypeByFetch_allFail [none, none] "https://x.example/a".toList
    (by simp)).2 (by decide)

end ImageList
